import Mathlib

/-!
Shallow embedding of the Spaced-Repetition Scheduling Engine of
smart-learning-cards (src/frontend/src/utils/superMemo.ts,
class SpacedRepetitionEngine), together with theorems settling the
specification claims about it.

Modelling conventions:
* JavaScript numbers are embedded as exact rationals (ℚ); integer-valued
  quantities (interval, repetitions) as ℤ/ℕ.
* Timestamps are epoch milliseconds, embedded as ℕ (Date.now() is
  non-negative); the result timestamp of the calculator is ℤ since it is
  now plus a (possibly caller-corrupted) signed interval of days.
* Math.round is JavaScript round-half-toward-positive-infinity.
* Calendar-day arithmetic is UTC (the spec fixes UTC as the reference
  zone): a date key is the number of whole days since the epoch.
* JavaScript truthiness tests on numeric fields (for example
  !card.sm2Data?.nextReview) are embedded as explicit = 0 tests.
-/

namespace SuperMemo

/-- JavaScript Math.round: round half toward positive infinity. -/
def jsRound (x : ℚ) : ℤ := ⌊x + 1/2⌋

/-- Rounding to 2 decimal places as the source does it:
Math.round(x * 100) / 100. -/
def round2 (x : ℚ) : ℚ := (jsRound (x * 100) : ℚ) / 100

/-- SM2Data: the per-card scheduling state (interface SM2Data of the
types/flashcard module, src/unnamed/part_002). -/
structure SM2Data where
  easeFactor : ℚ
  interval : ℤ
  repetitions : ℕ
  nextReview : ℕ
  lastReviewed : ℕ
deriving DecidableEq

/-- SuperMemoResult: the record returned by calculateNextReview
(interface SuperMemoResult, superMemo.ts lines 3-9). -/
structure SuperMemoResult where
  easeFactor : ℚ
  interval : ℤ
  repetitions : ℕ
  nextReview : ℤ
  lastReviewed : ℕ
deriving DecidableEq

/-- The three categorical review responses of the source. -/
inductive ReviewResponse where
  | know : ReviewResponse
  | unknown : ReviewResponse
  | difficult : ReviewResponse
deriving DecidableEq

/-- ReviewHistory: one entry of a card's review history (interface
ReviewHistory of the types/flashcard module, src/unnamed/part_002):
a timestamp, a categorical response and an optional raw quality. -/
structure ReviewHistory where
  timestamp : ℕ
  response : ReviewResponse
  quality : Option ℚ
deriving DecidableEq

/-- FlashCard: the card record (interface FlashCard of the
types/flashcard module, src/unnamed/part_002).  The fields id,
studySetId, front, back, sourceFragment, confidence, cardOrder and
createdAt are required and never interpreted by the engine; sm2Data and
reviewHistory are the optional scheduling state and review history it
reads. -/
structure FlashCard where
  id : String
  studySetId : String
  front : String
  back : String
  sourceFragment : String
  confidence : ℚ
  cardOrder : ℕ
  createdAt : String
  sm2Data : Option SM2Data
  reviewHistory : Option (List ReviewHistory)
deriving DecidableEq

/-- Milliseconds in one day. -/
def msPerDay : ℕ := 86400000

/-- UTC calendar date of an epoch-millisecond timestamp, as a count of
whole days since the epoch (the source's toISOString().split of a T
takes the UTC date string; two timestamps have the same date string iff
they have the same whole-day count). -/
def epochDay (t : ℕ) : ℕ := t / msPerDay

/-- Default scheduling data substituted when a card has none
(superMemo.ts lines 28-34). -/
def defaultSM2 (now : ℕ) : SM2Data :=
  { easeFactor := 5/2, interval := 1, repetitions := 0,
    nextReview := now, lastReviewed := now }

/-- The prior data the calculator works from: the card's sm2Data, or the
defaults (superMemo.ts line 28). -/
def currentData (card : FlashCard) (now : ℕ) : SM2Data :=
  card.sm2Data.getD (defaultSM2 now)

/-- Quality normalization (superMemo.ts line 39):
Math.max(0, Math.min(5, Math.round(quality))). -/
def clampQuality (q : ℚ) : ℤ := max 0 (min 5 (jsRound q))

/-- SpacedRepetitionEngine.calculateNextReview (superMemo.ts lines
26-78).  The two Date.now() reads and the new Date() read of the source
are the single evaluation instant now; setDate calendar-day addition is
UTC whole-day addition. -/
def calculateNextReview (card : FlashCard) (quality : ℚ) (now : ℕ) :
    SuperMemoResult :=
  let data := currentData card now
  let q := clampQuality quality
  let step : ℚ × ℤ × ℕ :=
    if 3 ≤ q then
      let reps := data.repetitions + 1
      let itv : ℤ :=
        if reps = 1 then 1
        else if reps = 2 then 6
        else jsRound ((data.interval : ℚ) * data.easeFactor)
      let ef : ℚ :=
        max (13/10)
          (data.easeFactor +
            (1/10 - ((5 - q : ℤ) : ℚ) * (8/100 + ((5 - q : ℤ) : ℚ) * (2/100))))
      (ef, itv, reps)
    else
      (max (13/10) (data.easeFactor - 2/10), (1 : ℤ), (0 : ℕ))
  { easeFactor := round2 step.1
    interval := step.2.1
    repetitions := step.2.2
    nextReview := (now : ℤ) + step.2.1 * (msPerDay : ℤ)
    lastReviewed := now }

/-- The due test of getDueCards (superMemo.ts lines 86-94): the
!card.sm2Data?.nextReview truthiness test is true when the state is
absent or the nextReview number is 0. -/
def dueCheck (now : ℕ) (card : FlashCard) : Bool :=
  match card.sm2Data with
  | none => true
  | some d => d.nextReview == 0 || decide (d.nextReview ≤ now)

/-- SpacedRepetitionEngine.getDueCards (superMemo.ts lines 83-95), with
the Date.now() read made an explicit parameter. -/
def getDueCards (cards : List FlashCard) (now : ℕ) : List FlashCard :=
  cards.filter (dueCheck now)

/-- The history test of getDifficultCards (superMemo.ts lines 105-107). -/
def hasDifficultHistory (card : FlashCard) : Bool :=
  match card.reviewHistory with
  | none => false
  | some hist =>
      hist.any (fun r =>
        r.response == ReviewResponse.unknown ||
        r.response == ReviewResponse.difficult)

/-- The low-ease test of getDifficultCards (superMemo.ts line 110):
card.sm2Data?.easeFactor && card.sm2Data.easeFactor < 2.0, the
truthiness conjunct being an easeFactor = 0 exclusion. -/
def hasLowEaseFactor (card : FlashCard) : Bool :=
  match card.sm2Data with
  | none => false
  | some d => decide (d.easeFactor ≠ 0) && decide (d.easeFactor < 2)

/-- SpacedRepetitionEngine.getDifficultCards (superMemo.ts lines
100-117). -/
def getDifficultCards (cards : List FlashCard) (now : ℕ) :
    List FlashCard :=
  cards.filter (fun card =>
    (hasDifficultHistory card || hasLowEaseFactor card) && dueCheck now card)

/-- The statistics record returned by getStudyStats (superMemo.ts lines
156-164). -/
structure StatsSummary where
  total : ℕ
  reviewed : ℕ
  due : ℕ
  difficult : ℕ
  mastered : ℕ
  masteryPercentage : ℤ
  avgEaseFactor : ℚ
deriving DecidableEq

/-- The with-ease test of getStudyStats (superMemo.ts line 145):
card.sm2Data?.easeFactor truthiness, false for an absent state or a
zero ease factor. -/
def hasEase (card : FlashCard) : Bool :=
  match card.sm2Data with
  | none => false
  | some d => decide (d.easeFactor ≠ 0)

/-- The mastery test of getStudyStats (superMemo.ts lines 151-154):
easeFactor truthy and > 2.5, interval truthy and > 7. -/
def isMastered (card : FlashCard) : Bool :=
  match card.sm2Data with
  | none => false
  | some d =>
      decide (d.easeFactor ≠ 0) && decide ((5/2 : ℚ) < d.easeFactor) &&
      decide (d.interval ≠ 0) && decide ((7 : ℤ) < d.interval)

/-- The reviewed test of getStudyStats (superMemo.ts line 140):
card.sm2Data?.lastReviewed truthiness. -/
def wasReviewed (card : FlashCard) : Bool :=
  match card.sm2Data with
  | none => false
  | some d => decide (d.lastReviewed ≠ 0)

/-- The ease factor read by the reduce of getStudyStats line 147 (the
non-null assertion card.sm2Data!.easeFactor). -/
def easeOf (card : FlashCard) : ℚ :=
  match card.sm2Data with
  | none => 0
  | some d => d.easeFactor

/-- SpacedRepetitionEngine.getStudyStats (superMemo.ts lines 138-165),
with the Date.now() reads of the due and difficult sub-queries made an
explicit parameter. -/
def getStudyStats (cards : List FlashCard) (now : ℕ) : StatsSummary :=
  let total := cards.length
  let cardsWithEase := cards.filter hasEase
  let avgEaseFactor : ℚ :=
    if 0 < cardsWithEase.length then
      (cardsWithEase.map easeOf).sum / (cardsWithEase.length : ℚ)
    else 5/2
  let masteredCards := (cards.filter isMastered).length
  { total := total
    reviewed := (cards.filter wasReviewed).length
    due := (getDueCards cards now).length
    difficult := (getDifficultCards cards now).length
    mastered := masteredCards
    masteryPercentage :=
      if 0 < total then jsRound ((masteredCards : ℚ) / (total : ℚ) * 100)
      else 0
    avgEaseFactor := round2 avgEaseFactor }

/-- The bucket test of getUpcomingReviews (superMemo.ts lines 179-183):
!card.sm2Data?.nextReview truthiness excludes an absent state and a
nextReview number equal to 0; otherwise the UTC date of nextReview must
equal the bucket's date key. -/
def upcomingCheck (dateKey : ℕ) (card : FlashCard) : Bool :=
  match card.sm2Data with
  | none => false
  | some d => decide (d.nextReview ≠ 0) && epochDay d.nextReview == dateKey

/-- SpacedRepetitionEngine.getUpcomingReviews (superMemo.ts lines
170-187): one (dateKey, count) entry per day offset i < days, the date
key being the UTC date of now plus i calendar days.  The source stores
the entries in an object keyed by date string in insertion order; the
keys are pairwise distinct, so the entry list is a faithful model. -/
def getUpcomingReviews (cards : List FlashCard) (days : ℕ) (now : ℕ) :
    List (ℕ × ℕ) :=
  (List.range days).map (fun i =>
    let dateKey := epochDay (now + i * msPerDay)
    (dateKey, (cards.filter (upcomingCheck dateKey)).length))

/-! Spec-side predicates, written from the specification's words, to be
compared with the source-side definitions above. -/

/-- The specification's due predicate: no SchedulingState, or
nextReview ≤ now. -/
def specDue (now : ℕ) (card : FlashCard) : Bool :=
  match card.sm2Data with
  | none => true
  | some d => decide (d.nextReview ≤ now)

/-- The specification's difficult predicate: (some ReviewRecord has
response unknown or difficult, or the SchedulingState has
easeFactor < 2.0) and the card is due. -/
def specDifficult (now : ℕ) (card : FlashCard) : Bool :=
  (hasDifficultHistory card ||
    (match card.sm2Data with
     | none => false
     | some d => decide (d.easeFactor < 2))) && specDue now card

/-- The specification's per-day count predicate for upcomingReviews: the
card has a SchedulingState whose nextReview falls on the given UTC
calendar date. -/
def specOnDay (dateKey : ℕ) (card : FlashCard) : Bool :=
  match card.sm2Data with
  | none => false
  | some d => epochDay d.nextReview == dateKey

/-- Well-formedness of a card per the spec's data model (§3): a present
SchedulingState has easeFactor ≥ 1.3. -/
def sm2WellFormed (card : FlashCard) : Bool :=
  match card.sm2Data with
  | none => true
  | some d => decide ((13/10 : ℚ) ≤ d.easeFactor)

/-! Helper lemmas. -/

/-- Rounding a value already integral is the identity. -/
theorem jsRound_intCast (z : ℤ) : jsRound (z : ℚ) = z := by
  unfold jsRound
  rw [Int.floor_int_add]
  norm_num

/-- Clamping an integer quality already in range is the identity. -/
theorem clampQuality_intCast {q : ℤ} (h0 : 0 ≤ q) (h5 : q ≤ 5) :
    clampQuality (q : ℚ) = q := by
  unfold clampQuality
  rw [jsRound_intCast]
  omega

/-- The clamped quality lies in the closed range 0..5. -/
theorem clampQuality_range (q : ℚ) :
    0 ≤ clampQuality q ∧ clampQuality q ≤ 5 := by
  unfold clampQuality
  constructor
  · exact le_max_left 0 _
  · exact max_le (by norm_num) (min_le_left 5 _)

/-- The calculator depends on the quality input only through its
clamped value. -/
theorem calculateNextReview_congr_clamp (card : FlashCard) {a b : ℚ}
    (h : clampQuality a = clampQuality b) (now : ℕ) :
    calculateNextReview card a now = calculateNextReview card b now := by
  unfold calculateNextReview
  rw [h]

/-- round2 preserves the 1.3 lower bound. -/
theorem round2_floor_13 {x : ℚ} (h : 13/10 ≤ x) : 13/10 ≤ round2 x := by
  unfold round2 jsRound
  have h1 : (130 : ℤ) ≤ ⌊x * 100 + 1/2⌋ := by
    rw [Int.le_floor]
    push_cast
    linarith
  have h2 : (130 : ℚ) ≤ (⌊x * 100 + 1/2⌋ : ℚ) := by exact_mod_cast h1
  linarith

/-! Claim theorems. -/

/-- Claim C1: calculateNextReview is deterministic: two invocations on
the same card (hence the same prior scheduling state or absence of
one), the same quality and the same evaluation time agree in every
field of the result. -/
theorem calculateNextReview_deterministic (card : FlashCard) (quality : ℚ)
    (now : ℕ) (r₁ r₂ : SuperMemoResult)
    (h₁ : r₁ = calculateNextReview card quality now)
    (h₂ : r₂ = calculateNextReview card quality now) :
    r₁.easeFactor = r₂.easeFactor ∧ r₁.interval = r₂.interval ∧
    r₁.repetitions = r₂.repetitions ∧ r₁.nextReview = r₂.nextReview ∧
    r₁.lastReviewed = r₂.lastReviewed := by
  subst h₁; subst h₂
  exact ⟨rfl, rfl, rfl, rfl, rfl⟩

/-- Witness for C1 at a concrete card, quality 3 and time 0. -/
theorem calculateNextReview_deterministic_witness :
    (calculateNextReview ⟨"a", "set", "f", "b", "frag", 5, 1, "t", none, none⟩ 3 0).easeFactor =
      (calculateNextReview ⟨"a", "set", "f", "b", "frag", 5, 1, "t", none, none⟩ 3 0).easeFactor ∧
    (calculateNextReview ⟨"a", "set", "f", "b", "frag", 5, 1, "t", none, none⟩ 3 0).interval =
      (calculateNextReview ⟨"a", "set", "f", "b", "frag", 5, 1, "t", none, none⟩ 3 0).interval ∧
    (calculateNextReview ⟨"a", "set", "f", "b", "frag", 5, 1, "t", none, none⟩ 3 0).repetitions =
      (calculateNextReview ⟨"a", "set", "f", "b", "frag", 5, 1, "t", none, none⟩ 3 0).repetitions ∧
    (calculateNextReview ⟨"a", "set", "f", "b", "frag", 5, 1, "t", none, none⟩ 3 0).nextReview =
      (calculateNextReview ⟨"a", "set", "f", "b", "frag", 5, 1, "t", none, none⟩ 3 0).nextReview ∧
    (calculateNextReview ⟨"a", "set", "f", "b", "frag", 5, 1, "t", none, none⟩ 3 0).lastReviewed =
      (calculateNextReview ⟨"a", "set", "f", "b", "frag", 5, 1, "t", none, none⟩ 3 0).lastReviewed :=
  calculateNextReview_deterministic ⟨"a", "set", "f", "b", "frag", 5, 1, "t", none, none⟩ 3 0
    _ _ rfl rfl

/-- Claim C4: the ease-factor floor is an invariant: whatever the input
card (with or without prior scheduling data) and whatever the quality,
the easeFactor of the result is at least 1.3, on both branches and
after the final rounding to 2 decimal places; consecutive failures in
particular can never drive it below 1.3. -/
theorem easeFactor_floor (card : FlashCard) (quality : ℚ) (now : ℕ) :
    13/10 ≤ (calculateNextReview card quality now).easeFactor := by
  unfold calculateNextReview
  dsimp only
  split
  · exact round2_floor_13 (le_max_left _ _)
  · exact round2_floor_13 (le_max_left _ _)

/-- Claim C7: quality normalization is round-then-clamp and total:
quality -5 behaves identically to 0, quality 99 identically to 5, and
in general any (possibly fractional or out-of-range) quality behaves
as its rounded-then-clamped value, which lies in 0..5. -/
theorem quality_clamping (card : FlashCard) (quality : ℚ) (now : ℕ) :
    calculateNextReview card (-5) now = calculateNextReview card 0 now ∧
    calculateNextReview card 99 now = calculateNextReview card 5 now ∧
    calculateNextReview card quality now =
      calculateNextReview card ((clampQuality quality : ℤ) : ℚ) now ∧
    0 ≤ clampQuality quality ∧ clampQuality quality ≤ 5 := by
  obtain ⟨hlo, hhi⟩ := clampQuality_range quality
  refine ⟨?_, ?_, ?_, hlo, hhi⟩
  · apply calculateNextReview_congr_clamp
    norm_num [clampQuality, jsRound]
  · apply calculateNextReview_congr_clamp
    norm_num [clampQuality, jsRound]
  · apply calculateNextReview_congr_clamp
    rw [clampQuality_intCast hlo hhi]

/-- Claim C2: the correct branch: for every prior scheduling state
(present or defaulted) and every clamped integer quality at least 3
(3 itself inclusive), the result increments repetitions, picks interval
1, 6 or round(priorInterval * priorEaseFactor) according to the new
repetition count, and updates the ease factor by the SM-2 formula with
the 1.3 floor, rounded to 2 decimal places. -/
theorem correct_branch (card : FlashCard) (q : ℤ) (now : ℕ)
    (h3 : 3 ≤ q) (h5 : q ≤ 5) :
    (calculateNextReview card (q : ℚ) now).repetitions =
      (currentData card now).repetitions + 1 ∧
    (calculateNextReview card (q : ℚ) now).interval =
      (if (currentData card now).repetitions + 1 = 1 then 1
       else if (currentData card now).repetitions + 1 = 2 then 6
       else jsRound (((currentData card now).interval : ℚ) *
         (currentData card now).easeFactor)) ∧
    (calculateNextReview card (q : ℚ) now).easeFactor =
      round2 (max (13/10) ((currentData card now).easeFactor +
        (1/10 - ((5 - q : ℤ) : ℚ) *
          (8/100 + ((5 - q : ℤ) : ℚ) * (2/100))))) := by
  have hq : clampQuality (q : ℚ) = q := clampQuality_intCast (by omega) h5
  unfold calculateNextReview
  rw [hq]
  dsimp only
  rw [if_pos h3]
  exact ⟨rfl, rfl, rfl⟩

/-- Witness for C2 at the inclusive boundary quality 3, on a card whose
third success multiplies the prior interval by the prior ease factor. -/
theorem correct_branch_witness :
    ((3 : ℤ) ≤ 3 ∧ (3 : ℤ) ≤ 5) ∧
    ((calculateNextReview ⟨"a", "set", "f", "b", "frag", 5, 1, "t",
        some ⟨23/10, 6, 2, 5, 5⟩, none⟩ ((3 : ℤ) : ℚ) 0).repetitions =
      (currentData ⟨"a", "set", "f", "b", "frag", 5, 1, "t",
        some ⟨23/10, 6, 2, 5, 5⟩, none⟩ 0).repetitions + 1 ∧
    (calculateNextReview ⟨"a", "set", "f", "b", "frag", 5, 1, "t",
        some ⟨23/10, 6, 2, 5, 5⟩, none⟩ ((3 : ℤ) : ℚ) 0).interval =
      (if (currentData ⟨"a", "set", "f", "b", "frag", 5, 1, "t",
          some ⟨23/10, 6, 2, 5, 5⟩, none⟩ 0).repetitions + 1 = 1 then 1
       else if (currentData ⟨"a", "set", "f", "b", "frag", 5, 1, "t",
          some ⟨23/10, 6, 2, 5, 5⟩, none⟩ 0).repetitions + 1 = 2 then 6
       else jsRound (((currentData ⟨"a", "set", "f", "b", "frag", 5, 1, "t",
          some ⟨23/10, 6, 2, 5, 5⟩, none⟩ 0).interval : ℚ) *
         (currentData ⟨"a", "set", "f", "b", "frag", 5, 1, "t",
          some ⟨23/10, 6, 2, 5, 5⟩, none⟩ 0).easeFactor)) ∧
    (calculateNextReview ⟨"a", "set", "f", "b", "frag", 5, 1, "t",
        some ⟨23/10, 6, 2, 5, 5⟩, none⟩ ((3 : ℤ) : ℚ) 0).easeFactor =
      round2 (max (13/10) ((currentData ⟨"a", "set", "f", "b", "frag", 5, 1, "t",
          some ⟨23/10, 6, 2, 5, 5⟩, none⟩ 0).easeFactor +
        (1/10 - ((5 - (3 : ℤ) : ℤ) : ℚ) *
          (8/100 + ((5 - (3 : ℤ) : ℤ) : ℚ) * (2/100)))))) :=
  ⟨⟨by decide, by decide⟩,
    correct_branch ⟨"a", "set", "f", "b", "frag", 5, 1, "t", some ⟨23/10, 6, 2, 5, 5⟩, none⟩
      3 0 (by decide) (by decide)⟩

/-- Claim C3: the incorrect branch: for every prior scheduling state
(present or defaulted) and every clamped quality below 3, the result
resets repetitions to 0 and interval to 1 and decreases the ease factor
by 0.2 down to the 1.3 floor, rounded to 2 decimal places. -/
theorem incorrect_branch (card : FlashCard) (q : ℤ) (now : ℕ)
    (h0 : 0 ≤ q) (h2 : q ≤ 2) :
    (calculateNextReview card (q : ℚ) now).repetitions = 0 ∧
    (calculateNextReview card (q : ℚ) now).interval = 1 ∧
    (calculateNextReview card (q : ℚ) now).easeFactor =
      round2 (max (13/10) ((currentData card now).easeFactor - 2/10)) := by
  have hq : clampQuality (q : ℚ) = q := clampQuality_intCast h0 (by omega)
  unfold calculateNextReview
  rw [hq]
  dsimp only
  rw [if_neg (by omega : ¬ (3 : ℤ) ≤ q)]
  exact ⟨rfl, rfl, rfl⟩

/-- Witness for C3 at quality 1 on a card with prior state. -/
theorem incorrect_branch_witness :
    ((0 : ℤ) ≤ 1 ∧ (1 : ℤ) ≤ 2) ∧
    ((calculateNextReview ⟨"a", "set", "f", "b", "frag", 5, 1, "t",
        some ⟨27/10, 6, 2, 5, 5⟩, none⟩ ((1 : ℤ) : ℚ) 0).repetitions = 0 ∧
    (calculateNextReview ⟨"a", "set", "f", "b", "frag", 5, 1, "t",
        some ⟨27/10, 6, 2, 5, 5⟩, none⟩ ((1 : ℤ) : ℚ) 0).interval = 1 ∧
    (calculateNextReview ⟨"a", "set", "f", "b", "frag", 5, 1, "t",
        some ⟨27/10, 6, 2, 5, 5⟩, none⟩ ((1 : ℤ) : ℚ) 0).easeFactor =
      round2 (max (13/10) ((currentData ⟨"a", "set", "f", "b", "frag", 5, 1, "t",
        some ⟨27/10, 6, 2, 5, 5⟩, none⟩ 0).easeFactor - 2/10))) :=
  ⟨⟨by decide, by decide⟩,
    incorrect_branch ⟨"a", "set", "f", "b", "frag", 5, 1, "t", some ⟨27/10, 6, 2, 5, 5⟩, none⟩
      1 0 (by decide) (by decide)⟩

/-- Claim C10: noninterference at the calculator's interface: the result
depends only on the card's sm2Data (and the quality and time), never on
the card's other fields. -/
theorem calculateNextReview_noninterference (c₁ c₂ : FlashCard)
    (quality : ℚ) (now : ℕ) (h : c₁.sm2Data = c₂.sm2Data) :
    calculateNextReview c₁ quality now = calculateNextReview c₂ quality now := by
  unfold calculateNextReview currentData
  rw [h]

/-- The source's due test coincides with the specification's due
predicate on every card: the truthiness acceptance of a zero nextReview
agrees with nextReview ≤ now because timestamps are non-negative. -/
theorem dueCheck_eq_specDue (now : ℕ) (card : FlashCard) :
    dueCheck now card = specDue now card := by
  unfold dueCheck specDue
  rcases card.sm2Data with _ | d
  · rfl
  · rcases Nat.eq_zero_or_pos d.nextReview with h | h
    · simp [h]
    · simp [Nat.pos_iff_ne_zero.mp h]

/-- Claim C5: getDueCards returns exactly the input-order subsequence of
cards that have no SchedulingState or whose nextReview is at most now
(the boundary nextReview = now inclusive), and the empty input yields
the empty output. -/
theorem getDueCards_spec (cards : List FlashCard) (now : ℕ) :
    getDueCards cards now = cards.filter (specDue now) ∧
    List.Sublist (getDueCards cards now) cards ∧
    getDueCards [] now = [] := by
  refine ⟨?_, ?_, rfl⟩
  · exact List.filter_congr (fun c _ => dueCheck_eq_specDue now c)
  · exact List.filter_sublist cards

/-- Claim C6: getDifficultCards selects exactly the cards that satisfy
the difficulty condition (a ReviewRecord with response unknown or
difficult, or a SchedulingState with easeFactor below 2.0) and are due
under the same due predicate as getDueCards, for every card list that
is well formed per the spec's data model (easeFactor at least 1.3). -/
theorem getDifficultCards_spec (cards : List FlashCard) (now : ℕ)
    (hwf : cards.all sm2WellFormed = true) :
    getDifficultCards cards now = cards.filter (specDifficult now) := by
  unfold getDifficultCards
  refine List.filter_congr (fun c hc => ?_)
  have hc2 : sm2WellFormed c = true := by
    rw [List.all_eq_true] at hwf
    exact hwf c hc
  unfold specDifficult
  rw [dueCheck_eq_specDue]
  congr 1
  congr 1
  unfold hasLowEaseFactor
  unfold sm2WellFormed at hc2
  cases hd : c.sm2Data with
  | none => rfl
  | some d =>
      rw [hd] at hc2
      have h13 : (13/10 : ℚ) ≤ d.easeFactor := by simpa using hc2
      have hne : d.easeFactor ≠ 0 := by
        intro h0
        rw [h0] at h13
        norm_num at h13
      simp [hne]

/-- Witness for C6 on a list holding one difficult due card (low ease
factor 1.5, never reviewed), one due but not difficult card, and one
card meeting the difficulty condition that is not due. -/
theorem getDifficultCards_spec_witness :
    ([⟨"a", "set", "f", "b", "frag", 5, 1, "t", some ⟨3/2, 1, 0, 4, 4⟩, none⟩,
      ⟨"c", "set", "f", "b", "frag", 5, 1, "t", none, none⟩,
      ⟨"d", "set", "f", "b", "frag", 5, 1, "t", some ⟨3/2, 1, 0, 99, 4⟩, none⟩] :
        List FlashCard).all sm2WellFormed = true ∧
    getDifficultCards
      [⟨"a", "set", "f", "b", "frag", 5, 1, "t", some ⟨3/2, 1, 0, 4, 4⟩, none⟩,
       ⟨"c", "set", "f", "b", "frag", 5, 1, "t", none, none⟩,
       ⟨"d", "set", "f", "b", "frag", 5, 1, "t", some ⟨3/2, 1, 0, 99, 4⟩, none⟩] 10 =
      ([⟨"a", "set", "f", "b", "frag", 5, 1, "t", some ⟨3/2, 1, 0, 4, 4⟩, none⟩,
        ⟨"c", "set", "f", "b", "frag", 5, 1, "t", none, none⟩,
        ⟨"d", "set", "f", "b", "frag", 5, 1, "t", some ⟨3/2, 1, 0, 99, 4⟩, none⟩] :
          List FlashCard).filter (specDifficult 10) := by
  constructor
  · norm_num [List.all, sm2WellFormed]
  · exact getDifficultCards_spec _ 10 (by norm_num [List.all, sm2WellFormed])

/-- Witness for C10: two cards differing in id, studySetId, text,
sourceFragment, confidence, cardOrder, createdAt and review history but
sharing the same sm2Data get the same result. -/
theorem calculateNextReview_noninterference_witness :
    calculateNextReview
      ⟨"a", "set1", "front1", "back1", "frag1", 5, 1, "t1",
        some ⟨5/2, 1, 0, 7, 7⟩, none⟩ 4 9 =
    calculateNextReview
      ⟨"b", "set2", "front2", "back2", "frag2", 9, 2, "t2",
        some ⟨5/2, 1, 0, 7, 7⟩,
        some [⟨7, ReviewResponse.know, none⟩]⟩ 4 9 :=
  calculateNextReview_noninterference _ _ 4 9 rfl

/-- Claim C9: getStudyStats never divides by zero and has defined
defaults: the empty collection yields total 0, masteryPercentage 0 and
avgEaseFactor 2.5; masteryPercentage is round(mastered / total * 100)
whenever total is positive and 0 when total is 0; and avgEaseFactor is
2.5 whenever no card has scheduling state. -/
theorem getStudyStats_safe (cards : List FlashCard) (now : ℕ) :
    (getStudyStats [] now).total = 0 ∧
    (getStudyStats [] now).masteryPercentage = 0 ∧
    (getStudyStats [] now).avgEaseFactor = 5/2 ∧
    (0 < cards.length →
      (getStudyStats cards now).masteryPercentage =
        jsRound (((getStudyStats cards now).mastered : ℚ) /
          (cards.length : ℚ) * 100)) ∧
    (cards.length = 0 → (getStudyStats cards now).masteryPercentage = 0) ∧
    ((∀ c ∈ cards, c.sm2Data = none) →
      (getStudyStats cards now).avgEaseFactor = 5/2) := by
  have hround : round2 (5/2) = 5/2 := by
    norm_num [round2, jsRound]
  refine ⟨rfl, rfl, ?_, ?_, ?_, ?_⟩
  · show round2 (5/2) = 5/2
    exact hround
  · intro h
    show (if 0 < cards.length then _ else _) = _
    rw [if_pos h]
    rfl
  · intro h
    show (if 0 < cards.length then _ else _) = _
    rw [if_neg (by omega)]
  · intro h
    have hfil : cards.filter hasEase = [] := by
      rw [List.filter_eq_nil_iff]
      intro c hc
      have := h c hc
      simp [hasEase, this]
    show round2 (if 0 < (cards.filter hasEase).length then _ else _) = _
    rw [hfil]
    simpa using hround

/-- Witness for C9: the empty collection, a singleton mastered card, and
a singleton stateless card. -/
theorem getStudyStats_safe_witness :
    ((getStudyStats [] 0).total = 0 ∧
     (getStudyStats [] 0).masteryPercentage = 0 ∧
     (getStudyStats [] 0).avgEaseFactor = 5/2) ∧
    (0 < ([⟨"m", "set", "f", "b", "frag", 5, 1, "t", some ⟨3, 10, 0, 1, 1⟩, none⟩] :
        List FlashCard).length ∧
     (getStudyStats [⟨"m", "set", "f", "b", "frag", 5, 1, "t", some ⟨3, 10, 0, 1, 1⟩, none⟩]
        0).masteryPercentage =
      jsRound (((getStudyStats
          [⟨"m", "set", "f", "b", "frag", 5, 1, "t", some ⟨3, 10, 0, 1, 1⟩, none⟩]
          0).mastered : ℚ) /
        (([⟨"m", "set", "f", "b", "frag", 5, 1, "t", some ⟨3, 10, 0, 1, 1⟩, none⟩] :
          List FlashCard).length : ℚ) * 100)) ∧
    (getStudyStats [⟨"n", "set", "f", "b", "frag", 5, 1, "t", none, none⟩] 0).avgEaseFactor =
      5/2 := by
  refine ⟨⟨(getStudyStats_safe [] 0).1, (getStudyStats_safe [] 0).2.1,
    (getStudyStats_safe [] 0).2.2.1⟩, ⟨by decide, ?_⟩, ?_⟩
  · exact (getStudyStats_safe
      [⟨"m", "set", "f", "b", "frag", 5, 1, "t", some ⟨3, 10, 0, 1, 1⟩, none⟩] 0).2.2.2.1
      (by decide)
  · exact (getStudyStats_safe [⟨"n", "set", "f", "b", "frag", 5, 1, "t", none, none⟩]
      0).2.2.2.2.2 (by simp)

/-! Lemmas for the upcoming-review forecast. -/

/-- Adding i whole days to a timestamp advances its UTC calendar date by
exactly i. -/
theorem epochDay_add_days (now i : ℕ) :
    epochDay (now + i * msPerDay) = epochDay now + i := by
  unfold epochDay msPerDay
  exact Nat.add_mul_div_right now i (by norm_num)

/-- The i-th entry of the forecast is the i-th following calendar day
paired with the count of cards passing that day's bucket test. -/
theorem getUpcomingReviews_entry (cards : List FlashCard) (days now i : ℕ)
    (hi : i < days) :
    (getUpcomingReviews cards days now)[i]? =
      some (epochDay now + i,
        (cards.filter (upcomingCheck (epochDay now + i))).length) := by
  unfold getUpcomingReviews
  rw [List.getElem?_map, List.getElem?_range hi]
  dsimp only [Option.map]
  rw [epochDay_add_days]

/-- A 0-1 indicator of hitting a fixed day sums to at most 1 over any
run of consecutive days. -/
theorem sum_day_indicator_le_one (d0 D n : ℕ) :
    ((List.range n).map (fun i => if d0 + i = D then 1 else 0)).sum ≤ 1 := by
  induction n with
  | zero => simp
  | succ n ih =>
      rw [List.range_succ, List.map_append, List.sum_append]
      simp only [List.map_cons, List.map_nil, List.sum_cons, List.sum_nil]
      by_cases h : d0 + n = D
      · have hz :
            ((List.range n).map (fun i => if d0 + i = D then 1 else 0)).sum
              = 0 := by
          apply List.sum_eq_zero
          intro x hx
          rw [List.mem_map] at hx
          obtain ⟨i, hi, hxe⟩ := hx
          rw [List.mem_range] at hi
          rw [← hxe, if_neg (by omega)]
        rw [hz, if_pos h]
        omega
      · rw [if_neg h]
        omega

/-- One card is counted in at most one bucket of the forecast, and only
when it has scheduling state. -/
theorem card_bucket_indicator (c : FlashCard) (now days : ℕ) :
    ((List.range days).map
      (fun i => if upcomingCheck (epochDay now + i) c then 1 else 0)).sum ≤
    (if c.sm2Data.isSome then 1 else 0) := by
  cases hd : c.sm2Data with
  | none =>
      have hz : ∀ i : ℕ, (if upcomingCheck (epochDay now + i) c then 1 else 0) = 0 := by
        intro i
        simp [upcomingCheck, hd]
      calc ((List.range days).map
              (fun i => if upcomingCheck (epochDay now + i) c then 1 else 0)).sum
          = 0 := by
            apply List.sum_eq_zero
            intro x hx
            rw [List.mem_map] at hx
            obtain ⟨i, _, hxe⟩ := hx
            rw [← hxe, hz i]
        _ ≤ _ := Nat.zero_le _
  | some d =>
      have hpt : ∀ i ∈ List.range days,
          (if upcomingCheck (epochDay now + i) c then 1 else 0) ≤
          (if epochDay now + i = epochDay d.nextReview then 1 else 0) := by
        intro i _
        by_cases h : upcomingCheck (epochDay now + i) c = true
        · have hda : epochDay d.nextReview = epochDay now + i := by
            unfold upcomingCheck at h
            rw [hd] at h
            simp only [Bool.and_eq_true, beq_iff_eq] at h
            exact h.2
          rw [if_pos h, if_pos hda.symm]
        · rw [if_neg h]
          omega
      calc ((List.range days).map
              (fun i => if upcomingCheck (epochDay now + i) c then 1 else 0)).sum
          ≤ ((List.range days).map
              (fun i => if epochDay now + i = epochDay d.nextReview then 1 else 0)).sum :=
            List.sum_le_sum hpt
        _ ≤ 1 := sum_day_indicator_le_one (epochDay now) (epochDay d.nextReview) days
        _ ≤ _ := by simp

/-- Splitting a filtered length at a cons cell. -/
theorem filter_length_cons (p : FlashCard → Bool) (a : FlashCard)
    (l : List FlashCard) :
    ((a :: l).filter p).length = (if p a then 1 else 0) + (l.filter p).length := by
  by_cases h : p a
  · rw [List.filter_cons_of_pos h, if_pos h]
    simp [Nat.add_comm]
  · rw [List.filter_cons_of_neg h, if_neg h]
    simp

/-- Sums of pointwise sums split. -/
theorem map_sum_split (l : List ℕ) (f g : ℕ → ℕ) :
    (l.map (fun i => f i + g i)).sum = (l.map f).sum + (l.map g).sum := by
  induction l with
  | nil => simp
  | cons a t ih =>
      simp only [List.map_cons, List.sum_cons, ih]
      omega

/-- The bucket counts of the forecast sum to at most the number of cards
that have scheduling state. -/
theorem sum_bucket_counts (cards : List FlashCard) (now days : ℕ) :
    ((List.range days).map
      (fun i => (cards.filter (upcomingCheck (epochDay now + i))).length)).sum ≤
    (cards.filter (fun c => c.sm2Data.isSome)).length := by
  induction cards with
  | nil => simp
  | cons c cs ih =>
      have hmap :
          ((List.range days).map
            (fun i => ((c :: cs).filter (upcomingCheck (epochDay now + i))).length))
          = ((List.range days).map
              (fun i => (if upcomingCheck (epochDay now + i) c then 1 else 0) +
                (cs.filter (upcomingCheck (epochDay now + i))).length)) := by
        apply List.map_congr_left
        intro i _
        exact filter_length_cons _ c cs
      rw [hmap, map_sum_split, filter_length_cons (fun c => c.sm2Data.isSome) c cs]
      exact Nat.add_le_add (card_bucket_indicator c now days) ih

/-- Counterexample to claim C8 as stated: at now = 0 (so the window
contains the epoch's calendar day) with days = 1, a card whose
nextReview is the timestamp 0 falls on the single day of the window
(the spec-side count is 1), yet the source's entry for that day is 0,
because the truthiness test !card.sm2Data?.nextReview discards a zero
nextReview. -/
theorem getUpcomingReviews_counterexample :
    getUpcomingReviews
        [⟨"a", "set", "f", "b", "frag", 5, 1, "t", some ⟨5/2, 1, 0, 0, 0⟩, none⟩] 1 0 =
      [(epochDay 0, 0)] ∧
    (([⟨"a", "set", "f", "b", "frag", 5, 1, "t", some ⟨5/2, 1, 0, 0, 0⟩, none⟩] :
        List FlashCard).filter (specOnDay (epochDay 0))).length = 1 :=
  ⟨by decide, by decide⟩

/-- Claim C8 as amended: for every card list, days ≥ 1 and time now, the
forecast has exactly days entries, the i-th being the UTC calendar day
of now plus i days paired with the count of cards whose nextReview is a
nonzero timestamp falling on that day (a zero nextReview is treated as
unscheduled); days with no reviews get an explicit zero entry, cards
without a SchedulingState are counted in no bucket, and the counts sum
to at most the number of cards that have scheduling state. -/
theorem getUpcomingReviews_amended (cards : List FlashCard)
    (days now : ℕ) (_hdays : 1 ≤ days) :
    (getUpcomingReviews cards days now).length = days ∧
    (∀ i, i < days → (getUpcomingReviews cards days now)[i]? =
      some (epochDay now + i,
        (cards.filter (upcomingCheck (epochDay now + i))).length)) ∧
    ((getUpcomingReviews cards days now).map Prod.snd).sum ≤
      (cards.filter (fun c => c.sm2Data.isSome)).length := by
  refine ⟨?_, fun i hi => getUpcomingReviews_entry cards days now i hi, ?_⟩
  · simp [getUpcomingReviews]
  · have hsnd : ((getUpcomingReviews cards days now).map Prod.snd) =
        (List.range days).map
          (fun i => (cards.filter (upcomingCheck (epochDay now + i))).length) := by
      unfold getUpcomingReviews
      rw [List.map_map]
      apply List.map_congr_left
      intro i _
      dsimp
      rw [epochDay_add_days]
    rw [hsnd]
    exact sum_bucket_counts cards now days

/-- Witness for the amended C8 at one day over the empty collection. -/
theorem getUpcomingReviews_amended_witness :
    1 ≤ 1 ∧ (getUpcomingReviews [] 1 0).length = 1 :=
  ⟨by decide, (getUpcomingReviews_amended [] 1 0 (by decide)).1⟩

end SuperMemo
